import Mathlib

/-!
Shallow embedding of the store-monitoring report engine of this repository
(`app/services/report_service.py`, `app/api/report_api.py`, tables from
`app/models.py`).

Modelling conventions:

* Naive UTC datetimes are integers counting seconds.  A local calendar day
  number `d` covers local wall seconds `[d*86400, (d+1)*86400)`; day `0` is
  calibrated to a Monday, so `weekday = d mod 7` with `0 = Monday`, matching
  Python's `date.weekday()`.  The absolute calibration of the epoch is
  irrelevant to every statement below.
* A pytz timezone is modelled as a fixed UTC offset `off` in seconds
  (local wall seconds = UTC seconds + `off`).  Every comparison and
  subtraction of aware datetimes in the source acts on the underlying UTC
  instant, so instants are represented directly by their UTC second count;
  the offset enters only through `.date()` / `.weekday()` of local datetimes
  and through `_localize_naive` (wall clock -> instant).
* `datetime.time` values are seconds from midnight (`time(23,59,59)` = 86399).
* Float accumulation is modelled by exact rationals; Python's `round(x, 6)`
  is modelled as rounding to the nearest multiple of 10⁻⁶.  For durations
  that are whole numbers of seconds scaled by 1/60 or 1/3600 a tie can never
  occur (the fractional part of `k*2500/9` is never 1/2), so the tie-breaking
  mode is immaterial.
* The SQLAlchemy session is replaced by the row lists of the three tables;
  each query of the source becomes the corresponding pure list operation.
-/

/-- Row of the `store_status` table (`app/models.py`). -/
structure StoreStatus where
  store_id : String
  timestamp_utc : Int
  status : String
deriving Repr, DecidableEq

/-- Row of the `business_hours` table (`app/models.py`). -/
structure BusinessHours where
  store_id : String
  day_of_week : Int
  start_time_local : Int
  end_time_local : Int
deriving Repr, DecidableEq

/-- Row of the `store_timezone` table (`app/models.py`). -/
structure StoreTimezone where
  store_id : String
  timezone_str : String
deriving Repr, DecidableEq

/-- The whole database handed to `generate_report`. -/
structure DB where
  statuses : List StoreStatus
  bhRows : List BusinessHours
  tzRows : List StoreTimezone
deriving Repr

/-- `get_max_timestamp` (report_service.py line 14): `SELECT max(timestamp_utc)`;
`None` (here `none`) when the table is empty. -/
def get_max_timestamp (statuses : List StoreStatus) : Option Int :=
  (statuses.map (fun s => s.timestamp_utc)).max?

/-- `get_store_timezone` (report_service.py line 19): first row for the store,
default `"America/Chicago"`.  The pytz object is identified with its
timezone-string key; offset resolution is a separate parameter downstream. -/
def get_store_timezone (tzRows : List StoreTimezone) (store_id : String) : String :=
  match tzRows.find? (fun r => r.store_id == store_id) with
  | some row => row.timezone_str
  | none => "America/Chicago"

/-- `get_business_hours` (report_service.py line 41): all rows for
`(store_id, day_of_week)`; if none, the full-day default
`00:00:00 -> 23:59:59`.  `_normalize_to_time` is the identity here because
times are already seconds-from-midnight. -/
def get_business_hours (bhRows : List BusinessHours) (store_id : String)
    (day_of_week : Int) : List (Int × Int) :=
  let rows := bhRows.filter
    (fun r => r.store_id == store_id && r.day_of_week == day_of_week)
  if rows.isEmpty then [(0, 86399)]
  else rows.map (fun r => (r.start_time_local, r.end_time_local))

/-- `_localize_naive` (report_service.py line 64): local date `d` and
time-of-day `t` to the UTC instant of that local wall-clock time. -/
def localize_naive (off d t : Int) : Int := d * 86400 + t - off

/-- Local calendar day of a UTC instant (`datetime.astimezone(tz).date()`).
Python's floor division is `Int.fdiv`. -/
def localDay (off t : Int) : Int := (t + off).fdiv 86400

/-- Python `date.weekday()` for a day number (day 0 is a Monday). -/
def dayWeekday (d : Int) : Int := d.emod 7

/-- One output row of the report (the dict built in
`calculate_uptime_downtime`). -/
structure ReportRow where
  store_id : String
  uptime_last_hour : ℚ
  downtime_last_hour : ℚ
  uptime_last_day : ℚ
  downtime_last_day : ℚ
  uptime_last_week : ℚ
  downtime_last_week : ℚ
deriving Repr, DecidableEq

/-- The six mutable accumulators of `calculate_uptime_downtime`
(hour window in minutes, day and week windows in hours). -/
structure Accum where
  up_hour : ℚ
  down_hour : ℚ
  up_day : ℚ
  down_day : ℚ
  up_week : ℚ
  down_week : ℚ
deriving Repr, DecidableEq

/-- Python `round(x, 6)` on the accumulated rationals (see the file
header: ties never arise for the values produced here). -/
def round6 (q : ℚ) : ℚ := ((round (q * 1000000) : ℤ) : ℚ) / 1000000

/-- The inner window loop body (report_service.py lines 160-171): clip an
overlap slice to one trailing window and add its minutes, scaled by
`unit`, to the proper accumulator pair. -/
def windowAdd (win_start now_local : Int) (unit : ℚ) (isActive : Bool)
    (overlap_start overlap_end : Int) (up down : ℚ) : ℚ × ℚ :=
  let w_start := max overlap_start win_start
  let w_end := min overlap_end now_local
  if w_start < w_end then
    let minutes : ℚ := ((w_end - w_start : Int) : ℚ) / 60
    if isActive then (up + minutes / unit, down) else (up, down + minutes / unit)
  else (up, down)

/-- Lines 155-171: the three windows `(hour, 1), (day, 60), (week, 60)`. -/
def applyWindows (hour_start day_start week_start now_local : Int)
    (isActive : Bool) (overlap_start overlap_end : Int) (acc : Accum) : Accum :=
  let h := windowAdd hour_start now_local 1 isActive overlap_start overlap_end
    acc.up_hour acc.down_hour
  let d := windowAdd day_start now_local 60 isActive overlap_start overlap_end
    acc.up_day acc.down_day
  let w := windowAdd week_start now_local 60 isActive overlap_start overlap_end
    acc.up_week acc.down_week
  ⟨h.1, h.2, d.1, d.2, w.1, w.2⟩

/-- Lines 135-146: the concrete business-hours segments of one rule on one
local calendar day, splitting a midnight-crossing rule
(`bh_end_local <= bh_start_local`) into
`(start -> 23:59:59)` and `(00:00:00 next day -> end next day)`. -/
def bhSegments (off d bh_start_t bh_end_t : Int) : List (Int × Int) :=
  let bh_start_local := localize_naive off d bh_start_t
  let bh_end_local := localize_naive off d bh_end_t
  if bh_end_local ≤ bh_start_local then
    [(bh_start_local, localize_naive off d 86399),
     (localize_naive off (d + 1) 0, localize_naive off (d + 1) bh_end_t)]
  else
    [(bh_start_local, bh_end_local)]

/-- Lines 148-171: intersect the observation interval with one
business-hours segment and `now`, then feed the three windows. -/
def segmentAdd (hour_start day_start week_start now_local start_local end_local : Int)
    (isActive : Bool) (seg : Int × Int) (acc : Accum) : Accum :=
  let overlap_start := max start_local seg.1
  let overlap_end := min (min end_local seg.2) now_local
  if overlap_start < overlap_end then
    applyWindows hour_start day_start week_start now_local isActive
      overlap_start overlap_end acc
  else acc

/-- Lines 127-171: one iteration of the day-walk: fetch the day's business
hours and process every rule's segments. -/
def dayAdd (bhRows : List BusinessHours) (store_id : String)
    (off hour_start day_start week_start now_local start_local end_local : Int)
    (isActive : Bool) (acc : Accum) (d : Int) : Accum :=
  (get_business_hours bhRows store_id (dayWeekday d)).foldl
    (fun a bh =>
      (bhSegments off d bh.1 bh.2).foldl
        (fun a2 seg => segmentAdd hour_start day_start week_start now_local
          start_local end_local isActive seg a2) a)
    acc

/-- The calendar days `d0 .. d1` (inclusive) walked by the cursor loop of
lines 125-173 (empty when `d1 < d0`). -/
def dayList (d0 d1 : Int) : List Int :=
  (List.range (d1 - d0 + 1).toNat).map (fun (k : Nat) => d0 + (k : Int))

/-- Lines 119-173: process one interpolated observation row
`(start_local, status, end_local)` by walking every calendar day the
interval touches. -/
def processRow (bhRows : List BusinessHours) (store_id : String)
    (off hour_start day_start week_start now_local : Int)
    (acc : Accum) (row : Int × String × Int) : Accum :=
  (dayList (localDay off row.1) (localDay off row.2.2)).foldl
    (dayAdd bhRows store_id off hour_start day_start week_start now_local
      row.1 row.2.2 (row.2.1 == "active"))
    acc

/-- Lines 107-109: each status persists until the next poll; the last one
persists to `now_local`. -/
def interpolate (now_local : Int) : List StoreStatus → List (Int × String × Int)
  | [] => []
  | [o] => [(o.timestamp_utc, o.status, now_local)]
  | o :: o2 :: rest =>
      (o.timestamp_utc, o.status, o2.timestamp_utc) :: interpolate now_local (o2 :: rest)

/-- Comparison used by `ORDER BY timestamp_utc ASC` (line 92). -/
def tsLe (a b : StoreStatus) : Prop := a.timestamp_utc ≤ b.timestamp_utc

instance : DecidableRel tsLe :=
  fun a b => inferInstanceAs (Decidable (a.timestamp_utc ≤ b.timestamp_utc))

instance : IsTotal StoreStatus tsLe :=
  ⟨fun a b => Int.le_total a.timestamp_utc b.timestamp_utc⟩

instance : IsTrans StoreStatus tsLe :=
  ⟨fun _ _ _ h1 h2 => le_trans h1 h2⟩

/-- `calculate_uptime_downtime` (report_service.py lines 72-181).  The pytz
timezone of the store is the fixed offset `off`; the status table and the
business-hours table are passed whole, and the source's two filtered
queries become the corresponding list filters.  SQL's result order for
equal timestamps is unspecified; a stable insertion sort is used. -/
def calculate_uptime_downtime (store_id : String) (bhRows : List BusinessHours)
    (off : Int) (statuses : List StoreStatus) (now : Int) : ReportRow :=
  let now_local := now
  let hour_start_utc := now - 3600
  let day_start_utc := now - 86400
  let week_start_utc := now - 604800
  let logs := List.insertionSort tsLe
    (statuses.filter
      (fun l => l.store_id == store_id && decide (week_start_utc ≤ l.timestamp_utc)))
  if logs.isEmpty then
    ⟨store_id, 0, 0, 0, 0, 0, 0⟩
  else
    let rows := interpolate now_local logs
    let acc := rows.foldl
      (processRow bhRows store_id off hour_start_utc day_start_utc week_start_utc
        now_local)
      ⟨0, 0, 0, 0, 0, 0⟩
    ⟨store_id, round6 acc.up_hour, round6 acc.down_hour, round6 acc.up_day,
      round6 acc.down_day, round6 acc.up_week, round6 acc.down_week⟩

/-- `generate_report` (report_service.py lines 187-200).  `tzOffset` resolves
a timezone string to its fixed offset.  Writing the CSV is modelled by
returning the path together with the rows; a raised exception is an
`Except.error` carrying its description.  When the status table is empty,
`now` is `None`; the comprehension over the (then empty) store list never
touches it, so the only way to raise is the (dead) nonempty case. -/
def generate_report (db : DB) (tzOffset : String → Int) (output_path : String) :
    Except String (String × List ReportRow) :=
  let store_ids := (db.statuses.map (fun s => s.store_id)).dedup
  match get_max_timestamp db.statuses with
  | some now =>
      Except.ok (output_path, store_ids.map (fun sid =>
        calculate_uptime_downtime sid db.bhRows
          (tzOffset (get_store_timezone db.tzRows sid)) db.statuses now))
  | none =>
      if store_ids.isEmpty then Except.ok (output_path, [])
      else Except.error "TypeError: NoneType reference timestamp"

/-- Storage round trips of one report run, by table and query shape. -/
structure QueryCount where
  status_range : Nat
  schedule : Nat
  timezone : Nat
  status_other : Nat
deriving Repr, DecidableEq

def QueryCount.add (a b : QueryCount) : QueryCount :=
  ⟨a.status_range + b.status_range, a.schedule + b.schedule,
   a.timezone + b.timezone, a.status_other + b.status_other⟩

/-- Number of `get_business_hours` calls (each one SQL query, line 128) made
by one `calculate_uptime_downtime` call: one per day-walk iteration of each
interpolated row. -/
def calc_schedule_queries (off now_local : Int) (logs : List StoreStatus) : Nat :=
  ((interpolate now_local logs).map
    (fun row => (dayList (localDay off row.1) (localDay off row.2.2)).length)).sum

/-- Queries issued by one `calculate_uptime_downtime` call: one
store-timezone lookup (line 21), one per-store observation range query
(lines 89-92), and the schedule queries of the day-walk (line 128). -/
def calc_queries (store_id : String) (off : Int) (statuses : List StoreStatus)
    (now : Int) : QueryCount :=
  let week_start_utc := now - 604800
  let logs := List.insertionSort tsLe
    (statuses.filter
      (fun l => l.store_id == store_id && decide (week_start_utc ≤ l.timestamp_utc)))
  if logs.isEmpty then ⟨1, 0, 1, 0⟩
  else ⟨1, calc_schedule_queries off now logs, 1, 0⟩

/-- Queries issued by one `generate_report` run: the max-timestamp query and
the distinct-store query (both on `store_status`), plus the queries of each
per-store `calculate_uptime_downtime` call. -/
def generate_report_queries (db : DB) (tzOffset : String → Int) : QueryCount :=
  let store_ids := (db.statuses.map (fun s => s.store_id)).dedup
  match get_max_timestamp db.statuses with
  | some now =>
      (store_ids.map (fun sid =>
        calc_queries sid (tzOffset (get_store_timezone db.tzRows sid))
          db.statuses now)).foldl QueryCount.add ⟨0, 0, 0, 2⟩
  | none => ⟨0, 0, 0, 2⟩

/-- Job states kept in the in-memory `report_status` dict
(`app/api/report_api.py`). -/
inductive JobStatus where
  | Running : JobStatus
  | Complete : String → JobStatus
  | Failed : String → JobStatus
deriving Repr, DecidableEq

/-- Responses of the `/get_report/{report_id}` endpoint. -/
inductive ReportResponse where
  | invalidId : ReportResponse
  | running : ReportResponse
  | complete : String → ReportResponse
  | failed : String → ReportResponse
deriving Repr, DecidableEq

/-- Python dict assignment `report_status[report_id] = v`, modelled by a
shadowing association list (lookups see the newest entry). -/
def setStatus (m : List (String × JobStatus)) (k : String) (v : JobStatus) :
    List (String × JobStatus) := (k, v) :: m

/-- `run_report_task` (report_api.py lines 24-29): the `try/except` around
`generate_report`, whose outcome is the `Except` argument.  Total by
construction: every exception becomes a `Failed` entry, never a crash. -/
def run_report_task (report_id : String) (genResult : Except String String)
    (m : List (String × JobStatus)) : List (String × JobStatus) :=
  match genResult with
  | Except.ok path => setStatus m report_id (JobStatus.Complete path)
  | Except.error e => setStatus m report_id (JobStatus.Failed e)

/-- `get_report` (report_api.py lines 31-45). -/
def get_report (m : List (String × JobStatus)) (report_id : String) :
    ReportResponse :=
  match m.lookup report_id with
  | none => ReportResponse.invalidId
  | some JobStatus.Running => ReportResponse.running
  | some (JobStatus.Complete f) => ReportResponse.complete f
  | some (JobStatus.Failed e) => ReportResponse.failed e

/-- Seconds contributed to one window by an overlap slice
(`max 0` absorbs the `if w_start < w_end` guard of line 166). -/
def winSecs (win_start now_local overlap_start overlap_end : Int) : Int :=
  max 0 (min overlap_end now_local - max overlap_start win_start)

/-- Seconds contributed to one window by one business-hours segment
intersected with the observation interval `[s, e]` and `now` (lines 150-167). -/
def segSecs (win_start now_local s e : Int) (seg : Int × Int) : Int :=
  winSecs win_start now_local (max s seg.1) (min (min e seg.2) now_local)

/-- Total overlap seconds accumulated from the (possibly split) segments of
one business-hours rule on day `d` against the observation interval
`[start_local, end_local]` clipped at `now_local` (lines 148-153). -/
def segmentsOverlapTotal (off d bh_start_t bh_end_t start_local end_local
    now_local : Int) : Int :=
  ((bhSegments off d bh_start_t bh_end_t).map
    (fun seg => max 0 (min (min end_local seg.2) now_local - max start_local seg.1))).sum

/-- Duration of the unsplit open range of a midnight-crossing rule on day
`d`: from `d` at `bh_start_t` to `d+1` at `bh_end_t`. -/
def unsplitRangeSeconds (off d bh_start_t bh_end_t : Int) : Int :=
  localize_naive off (d + 1) bh_end_t - localize_naive off d bh_start_t

/-- Length of `[a, b] ∩ (default open hours)` for a store with no
business-hours rows: the full span minus the one dropped second
`23:59:59 -> 24:00:00` at each local midnight inside the span. -/
def coveredSeconds (off a b : Int) : Int :=
  if a ≤ b then (b - a) - max 0 (localDay off b - localDay off a) else 0

/-!
Derived quantities used by the verification: the per-slice contribution of
the nested loops of `calculate_uptime_downtime`, expressed as explicit sums.
-/

/-- Pointwise sum of accumulator records. -/
def Accum.add (a b : Accum) : Accum :=
  ⟨a.up_hour + b.up_hour, a.down_hour + b.down_hour, a.up_day + b.up_day,
   a.down_day + b.down_day, a.up_week + b.up_week, a.down_week + b.down_week⟩

def Accum.zero : Accum := ⟨0, 0, 0, 0, 0, 0⟩

def accSum (l : List Accum) : Accum := l.foldr Accum.add Accum.zero

def mkContrib (isActive : Bool) (h d w : Int) : Accum :=
  if isActive then
    ⟨(h : ℚ) / 60, 0, (d : ℚ) / 3600, 0, (w : ℚ) / 3600, 0⟩
  else
    ⟨0, (h : ℚ) / 60, 0, (d : ℚ) / 3600, 0, (w : ℚ) / 3600⟩

def daySecs (bhRows : List BusinessHours) (store_id : String)
    (off win now_local s e d : Int) : Int :=
  ((get_business_hours bhRows store_id (dayWeekday d)).map
    (fun bh => ((bhSegments off d bh.1 bh.2).map (segSecs win now_local s e)).sum)).sum

def rowSecs (bhRows : List BusinessHours) (store_id : String)
    (off win now_local s e : Int) : Int :=
  ((dayList (localDay off s) (localDay off e)).map
    (fun d => daySecs bhRows store_id off win now_local s e d)).sum

def rowContrib (bhRows : List BusinessHours) (store_id : String)
    (off hour_start day_start week_start now_local : Int)
    (row : Int × String × Int) : Accum :=
  mkContrib (row.2.1 == "active")
    (rowSecs bhRows store_id off hour_start now_local row.1 row.2.2)
    (rowSecs bhRows store_id off day_start now_local row.1 row.2.2)
    (rowSecs bhRows store_id off week_start now_local row.1 row.2.2)

/-!
Helper lemmas shared by several verification results.
-/

/-- Evaluates `round6` on a rational that is an exact multiple of 10⁻⁶. -/
theorem round6_int_div (n : ℤ) (q : ℚ) (h : q * 1000000 = (n : ℚ)) :
    round6 q = (n : ℚ) / 1000000 := by
  unfold round6
  rw [h, round_intCast]

theorem round6_thirty : round6 30 = 30 := by
  rw [round6_int_div 30000000 30 (by norm_num)]; norm_num

theorem round6_one : round6 1 = 1 := by
  rw [round6_int_div 1000000 1 (by norm_num)]; norm_num

theorem round6_half : round6 (1 / 2) = 1 / 2 := by
  rw [round6_int_div 500000 (1 / 2) (by norm_num)]; norm_num

theorem round6_zero : round6 0 = 0 := by
  rw [round6_int_div 0 0 (by norm_num)]; norm_num

/-- `round6` moves a value by at most half of 10⁻⁶. -/
theorem round6_close (q : ℚ) : |round6 q - q| ≤ 1 / 2000000 := by
  unfold round6
  have h := abs_sub_round (q * 1000000)
  have h2 : |((round (q * 1000000) : ℤ) : ℚ) / 1000000 - q|
      = |q * 1000000 - (round (q * 1000000) : ℤ)| / 1000000 := by
    rw [abs_sub_comm, ← abs_of_pos (show (0:ℚ) < 1000000 by norm_num), ← abs_div]
    congr 1
    field_simp
  rw [h2]
  rw [div_le_div_iff₀ (by norm_num) (by norm_num)]
  nlinarith [h]

/-- Claim C6: running `calculate_uptime_downtime` twice on identical inputs
(same observations, business hours, timezone offset, and the same reference
timestamp) yields identical output records; the computation reads nothing
but its arguments (the reference time is an explicit parameter, never a
wall-clock read), so it is deterministic. -/
theorem calculate_uptime_downtime_deterministic
    (sid1 sid2 : String) (bh1 bh2 : List BusinessHours) (off1 off2 : Int)
    (st1 st2 : List StoreStatus) (now1 now2 : Int)
    (h1 : sid1 = sid2) (h2 : bh1 = bh2) (h3 : off1 = off2) (h4 : st1 = st2)
    (h5 : now1 = now2) :
    calculate_uptime_downtime sid1 bh1 off1 st1 now1
      = calculate_uptime_downtime sid2 bh2 off2 st2 now2 := by
  rw [h1, h2, h3, h4, h5]

/-- Witness for C6 at a concrete input. -/
theorem calculate_uptime_downtime_deterministic_witness :
    calculate_uptime_downtime "S1" [] 0 [⟨"S1", 100, "active"⟩] 200
      = calculate_uptime_downtime "S1" [] 0 [⟨"S1", 100, "active"⟩] 200 :=
  calculate_uptime_downtime_deterministic "S1" "S1" [] [] 0 0
    [⟨"S1", 100, "active"⟩] [⟨"S1", 100, "active"⟩] 200 200 rfl rfl rfl rfl rfl

/-- Claim C4: when the store's observations restricted to the trailing week
are empty, `calculate_uptime_downtime` returns the row with all six numeric
fields exactly 0 — a normal return, not an error. -/
theorem calculate_empty_week_zero (store_id : String) (bhRows : List BusinessHours)
    (off : Int) (statuses : List StoreStatus) (now : Int)
    (h : statuses.filter
      (fun l => l.store_id == store_id && decide (now - 604800 ≤ l.timestamp_utc)) = []) :
    calculate_uptime_downtime store_id bhRows off statuses now
      = ⟨store_id, 0, 0, 0, 0, 0, 0⟩ := by
  unfold calculate_uptime_downtime
  simp only [h, List.insertionSort, List.isEmpty_nil, if_true]

/-- Witness for C4: one observation, but older than a week. -/
theorem calculate_empty_week_zero_witness :
    calculate_uptime_downtime "S1" [] 0 [⟨"S1", 0, "active"⟩] 1000000
      = ⟨"S1", 0, 0, 0, 0, 0, 0⟩ :=
  calculate_empty_week_zero "S1" [] 0 [⟨"S1", 0, "active"⟩] 1000000 (by decide)

/-- Claim C7: the timezone resolver returns the configured timezone of the
location when a row exists, and the fixed default `"America/Chicago"` when
none does; it is total, so it never fails. -/
theorem get_store_timezone_spec (tzRows : List StoreTimezone) (store_id : String) :
    ((∀ r ∈ tzRows, r.store_id ≠ store_id) →
      get_store_timezone tzRows store_id = "America/Chicago") ∧
    ((∃ r ∈ tzRows, r.store_id = store_id) →
      ∃ r ∈ tzRows, r.store_id = store_id ∧
        get_store_timezone tzRows store_id = r.timezone_str) := by
  constructor
  · intro h
    unfold get_store_timezone
    have hnone : tzRows.find? (fun r => r.store_id == store_id) = none := by
      rw [List.find?_eq_none]
      intro x hx
      simpa using h x hx
    rw [hnone]
  · intro h
    have hs : (tzRows.find? (fun r => r.store_id == store_id)).isSome := by
      rw [List.find?_isSome]
      obtain ⟨r, hr, he⟩ := h
      exact ⟨r, hr, by simpa using he⟩
    obtain ⟨row, hrow⟩ := Option.isSome_iff_exists.mp hs
    refine ⟨row, List.mem_of_find?_eq_some hrow, ?_, ?_⟩
    · simpa using List.find?_some hrow
    · unfold get_store_timezone
      rw [hrow]

/-- Witness for C7: both the default branch and the configured branch at
concrete inputs. -/
theorem get_store_timezone_spec_witness :
    get_store_timezone [] "S1" = "America/Chicago" ∧
    (∃ r ∈ [(⟨"S2", "America/Denver"⟩ : StoreTimezone)], r.store_id = "S2" ∧
      get_store_timezone [⟨"S2", "America/Denver"⟩] "S2" = r.timezone_str) :=
  ⟨(get_store_timezone_spec [] "S1").1 (by simp),
   (get_store_timezone_spec [⟨"S2", "America/Denver"⟩] "S2").2
     ⟨⟨"S2", "America/Denver"⟩, by simp, rfl⟩⟩

/-- Claim C8: any exception of a report run (the `Except.error` outcome of
`generate_report`, e.g. a storage failure during the bulk load) makes
`run_report_task` store the `Failed` state carrying the error's description,
and a subsequent `get_report` for that job id returns `Failed` with that
message.  Both functions are total, so the hosting process never crashes. -/
theorem run_report_task_failed_visible (m : List (String × JobStatus))
    (report_id e : String) :
    get_report (run_report_task report_id (Except.error e) m) report_id
      = ReportResponse.failed e := by
  simp [get_report, run_report_task, setStatus]

/-- Claim C10: with an entirely empty observation table the reference
timestamp is `None`, but the store list is empty too, so `generate_report`
raises nothing: it produces the empty report at the requested path and
returns that path. -/
theorem generate_report_empty_table (db : DB) (tzOffset : String → Int)
    (output_path : String) (h : db.statuses = []) :
    generate_report db tzOffset output_path = Except.ok (output_path, []) := by
  unfold generate_report get_max_timestamp
  rw [h]
  simp

/-- Witness for C10 at the empty database. -/
theorem generate_report_empty_table_witness :
    generate_report ⟨[], [], []⟩ (fun _ => 0) "output/report.csv"
      = Except.ok ("output/report.csv", []) :=
  generate_report_empty_table ⟨[], [], []⟩ (fun _ => 0) "output/report.csv" rfl

/-- Claim C1 (counterexample): in the spec's concrete scenario — timezone
UTC (offset 0), always-open schedule, observations active at T−90min and
inactive at T−30min, reference T (here T = day 3 at 12:00:00) — the code
returns `uptime_last_day` = 1.0 hour (the active validity interval
T−90min → T−30min is exactly one hour), not the claimed ≈ 1.5 hours. -/
theorem scenario_uptime_day_ne_claimed :
    (calculate_uptime_downtime "S1" [] 0
      [⟨"S1", 297000, "active"⟩, ⟨"S1", 300600, "inactive"⟩] 302400).uptime_last_day
      ≠ 3 / 2 := by
  simp [calculate_uptime_downtime, List.insertionSort, List.orderedInsert, tsLe,
    interpolate, processRow, dayAdd, segmentAdd, applyWindows, windowAdd,
    get_business_hours, bhSegments, localize_naive, localDay, dayWeekday,
    show dayList 3 3 = [3] from by decide, min_def, max_def]
  norm_num [round6_one]

/-- Claim C1 (amended): in the same scenario the code returns
`uptime_last_hour` = 30.0 minutes, `downtime_last_hour` = 30.0 minutes,
`uptime_last_day` = 1.0 hour, `downtime_last_day` = 0.5 hours (and the week
fields equal the day fields, the data covering only 90 minutes). -/
theorem scenario_all_fields :
    calculate_uptime_downtime "S1" [] 0
      [⟨"S1", 297000, "active"⟩, ⟨"S1", 300600, "inactive"⟩] 302400
      = ⟨"S1", 30, 30, 1, 1 / 2, 1, 1 / 2⟩ := by
  simp [calculate_uptime_downtime, List.insertionSort, List.orderedInsert, tsLe,
    interpolate, processRow, dayAdd, segmentAdd, applyWindows, windowAdd,
    get_business_hours, bhSegments, localize_naive, localDay, dayWeekday,
    show dayList 3 3 = [3] from by decide, min_def, max_def]
  norm_num [round6_thirty, round6_one, round6_half]

/-- Claim C3 (counterexample): for a rule open 22:00 → 02:00 on day 0
(UTC offset 0) and an observation interval that fully spans it, the total
overlap accumulated from the two split segments is 14399 seconds, not the
14400 seconds of the unsplit open range: the split drops one second. -/
theorem split_total_ne_unsplit :
    segmentsOverlapTotal 0 0 79200 7200 79200 93600 93600
      ≠ unsplitRangeSeconds 0 0 79200 7200 := by
  decide

/-- Claim C3 (amended): for every midnight-crossing rule
(`bh_end_t ≤ bh_start_t`) with well-formed times, and every observation
interval `[s, e]` spanning the whole open range (with `e ≤ now`), the total
overlap accumulated from the two split segments equals the unsplit range's
duration minus exactly one second: nothing is double-counted, and precisely
the second 23:59:59 → 24:00:00 at the split boundary is dropped. -/
theorem split_total_eq_unsplit_sub_one (off d bh_start_t bh_end_t s e now_local : Int)
    (hcross : bh_end_t ≤ bh_start_t) (hbe : 0 ≤ bh_end_t) (hbs : bh_start_t ≤ 86399)
    (hs : s ≤ localize_naive off d bh_start_t)
    (he : localize_naive off (d + 1) bh_end_t ≤ e) (hnow : e ≤ now_local) :
    segmentsOverlapTotal off d bh_start_t bh_end_t s e now_local
      = unsplitRangeSeconds off d bh_start_t bh_end_t - 1 := by
  unfold segmentsOverlapTotal bhSegments unsplitRangeSeconds localize_naive at *
  rw [if_pos (by omega)]
  simp only [List.map_cons, List.map_nil, List.sum_cons, List.sum_nil]
  omega

/-- Witness for the amended C3 at the 22:00 → 02:00 example. -/
theorem split_total_eq_unsplit_sub_one_witness :
    segmentsOverlapTotal 0 0 79200 7200 79200 93600 93600
      = unsplitRangeSeconds 0 0 79200 7200 - 1 :=
  split_total_eq_unsplit_sub_one 0 0 79200 7200 79200 93600 93600
    (by decide) (by decide) (by decide) (by decide) (by decide) (by decide)

/-- The per-store status query count of one `calculate_uptime_downtime`
call is always exactly one, whether or not the store has trailing-week
observations. -/
theorem calc_queries_status_range (store_id : String) (off : Int)
    (statuses : List StoreStatus) (now : Int) :
    (calc_queries store_id off statuses now).status_range = 1 := by
  unfold calc_queries
  dsimp only
  split <;> rfl

/-- Folding `QueryCount.add` over per-store counts whose `status_range` is
one yields the number of stores. -/
theorem qsum_status_range (g : String → QueryCount) (h : ∀ sid, (g sid).status_range = 1) :
    ∀ (sids : List String) (init : QueryCount),
      ((sids.map g).foldl QueryCount.add init).status_range
        = init.status_range + sids.length := by
  intro sids
  induction sids with
  | nil => intro init; simp
  | cons x xs ih =>
      intro init
      simp only [List.map_cons, List.foldl_cons, List.length_cons]
      rw [ih]
      simp only [QueryCount.add, h x]
      omega

/-- Claim C5 (amended): one report run issues one observation range query
per distinct location present in the status table (plus the max-timestamp
and distinct-store queries, and one timezone and one schedule query per
location/day-walk step): the number of storage round trips grows with the
number of locations instead of being a constant. -/
theorem generate_report_queries_per_store (db : DB) (tzOffset : String → Int) :
    (generate_report_queries db tzOffset).status_range
      = ((db.statuses.map (fun s => s.store_id)).dedup).length := by
  unfold generate_report_queries
  cases hmax : get_max_timestamp db.statuses with
  | none =>
      have hnil : db.statuses = [] := by
        unfold get_max_timestamp at hmax
        simpa using hmax
      simp [hnil]
  | some now =>
      rw [qsum_status_range _ (fun sid => calc_queries_status_range sid _ _ _)]
      simp

/-- Claim C5 (counterexample): with two monitored locations the run issues
two per-store observation range queries, not the single bulk query of the
claim. -/
theorem two_stores_two_status_queries :
    (generate_report_queries
      ⟨[⟨"A", 100, "active"⟩, ⟨"B", 200, "inactive"⟩], [], []⟩
      (fun _ => 0)).status_range ≠ 1 := by
  decide

/-- Claim C2 (counterexample): a store with no business-hour rows and one
observation (at the reference instant itself) has
`uptime_last_hour + downtime_last_hour` = 0, which differs from the claimed
full window duration of 60 minutes by far more than the 6-decimal
rounding. -/
theorem fully_open_sum_ne_window :
    1 / 1000000 <
      |(calculate_uptime_downtime "S1" [] 0 [⟨"S1", 43200, "active"⟩] 43200).uptime_last_hour
        + (calculate_uptime_downtime "S1" [] 0 [⟨"S1", 43200, "active"⟩] 43200).downtime_last_hour
        - 60| := by
  simp [calculate_uptime_downtime, List.insertionSort, List.orderedInsert, tsLe,
    interpolate, processRow, dayAdd, segmentAdd, applyWindows, windowAdd,
    get_business_hours, bhSegments, localize_naive, localDay, dayWeekday,
    show dayList 0 0 = [0] from by decide, min_def, max_def]
  norm_num [round6_zero]

theorem Accum.add_zero (a : Accum) : Accum.add a Accum.zero = a := by
  cases a; simp [Accum.add, Accum.zero]

theorem Accum.zero_add (a : Accum) : Accum.add Accum.zero a = a := by
  cases a; simp [Accum.add, Accum.zero]

theorem Accum.add_assoc (a b c : Accum) :
    Accum.add (Accum.add a b) c = Accum.add a (Accum.add b c) := by
  cases a; cases b; cases c
  simp only [Accum.add, Accum.mk.injEq]
  refine ⟨by ring, by ring, by ring, by ring, by ring, by ring⟩

theorem foldl_add_contrib {α : Type} (f : α → Accum) :
    ∀ (l : List α) (a : Accum),
      l.foldl (fun acc x => Accum.add acc (f x)) a = Accum.add a (accSum (l.map f)) := by
  intro l
  induction l with
  | nil => intro a; simp [accSum, Accum.add_zero]
  | cons x xs ih =>
      intro a
      simp only [List.foldl_cons, List.map_cons]
      rw [ih, show accSum (f x :: List.map f xs)
        = Accum.add (f x) (accSum (List.map f xs)) from rfl, Accum.add_assoc]

theorem windowAdd_true_eq (win nl : Int) (unit : ℚ) (os oe : Int) (up down : ℚ) :
    windowAdd win nl unit true os oe up down
      = (up + ((winSecs win nl os oe : Int) : ℚ) / 60 / unit, down) := by
  unfold windowAdd
  simp only [eq_self_iff_true, if_true]
  split_ifs with h
  · have hw : winSecs win nl os oe = min oe nl - max os win := by unfold winSecs; omega
    rw [hw]
  · have hw : winSecs win nl os oe = 0 := by unfold winSecs; omega
    rw [hw]; simp

theorem windowAdd_false_eq (win nl : Int) (unit : ℚ) (os oe : Int) (up down : ℚ) :
    windowAdd win nl unit false os oe up down
      = (up, down + ((winSecs win nl os oe : Int) : ℚ) / 60 / unit) := by
  unfold windowAdd
  simp only [Bool.false_eq_true, if_false]
  split_ifs with h
  · have hw : winSecs win nl os oe = min oe nl - max os win := by unfold winSecs; omega
    rw [hw]
  · have hw : winSecs win nl os oe = 0 := by unfold winSecs; omega
    rw [hw]; simp

theorem segmentAdd_eq (hs ds ws nl s e : Int) (act : Bool) (seg : Int × Int) (acc : Accum) :
    segmentAdd hs ds ws nl s e act seg acc
      = Accum.add acc (mkContrib act (segSecs hs nl s e seg) (segSecs ds nl s e seg)
          (segSecs ws nl s e seg)) := by
  cases act
  · unfold segmentAdd
    dsimp only
    split_ifs with h
    · unfold applyWindows
      rw [windowAdd_false_eq, windowAdd_false_eq, windowAdd_false_eq]
      unfold segSecs
      cases acc <;>
        simp [mkContrib, Accum.add, div_div, show (60 : ℚ) * 60 = 3600 by norm_num]
    · have h1 : segSecs hs nl s e seg = 0 := by unfold segSecs winSecs; omega
      have h2 : segSecs ds nl s e seg = 0 := by unfold segSecs winSecs; omega
      have h3 : segSecs ws nl s e seg = 0 := by unfold segSecs winSecs; omega
      rw [h1, h2, h3]
      cases acc <;> simp [mkContrib, Accum.add]
  · unfold segmentAdd
    dsimp only
    split_ifs with h
    · unfold applyWindows
      rw [windowAdd_true_eq, windowAdd_true_eq, windowAdd_true_eq]
      unfold segSecs
      cases acc <;>
        simp [mkContrib, Accum.add, div_div, show (60 : ℚ) * 60 = 3600 by norm_num]
    · have h1 : segSecs hs nl s e seg = 0 := by unfold segSecs winSecs; omega
      have h2 : segSecs ds nl s e seg = 0 := by unfold segSecs winSecs; omega
      have h3 : segSecs ws nl s e seg = 0 := by unfold segSecs winSecs; omega
      rw [h1, h2, h3]
      cases acc <;> simp [mkContrib, Accum.add]

theorem mkContrib_add (act : Bool) (h1 d1 w1 h2 d2 w2 : Int) :
    Accum.add (mkContrib act h1 d1 w1) (mkContrib act h2 d2 w2)
      = mkContrib act (h1 + h2) (d1 + d2) (w1 + w2) := by
  cases act <;>
    simp only [mkContrib, Bool.false_eq_true, if_false, eq_self_iff_true, if_true,
      Accum.add, Accum.mk.injEq, Int.cast_add] <;>
    refine ⟨by ring, by ring, by ring, by ring, by ring, by ring⟩

theorem mkContrib_zero (act : Bool) : mkContrib act 0 0 0 = Accum.zero := by
  cases act <;>
    simp [mkContrib, Accum.zero]

theorem accSum_mkContrib {α : Type} (act : Bool) (f1 f2 f3 : α → Int) :
    ∀ l : List α,
      accSum (l.map (fun x => mkContrib act (f1 x) (f2 x) (f3 x)))
        = mkContrib act ((l.map f1).sum) ((l.map f2).sum) ((l.map f3).sum) := by
  intro l
  induction l with
  | nil => simp [accSum, mkContrib_zero]
  | cons x xs ih =>
      simp only [List.map_cons, List.sum_cons]
      rw [show accSum (mkContrib act (f1 x) (f2 x) (f3 x)
          :: (xs.map (fun x => mkContrib act (f1 x) (f2 x) (f3 x))))
        = Accum.add (mkContrib act (f1 x) (f2 x) (f3 x))
            (accSum (xs.map (fun x => mkContrib act (f1 x) (f2 x) (f3 x)))) from rfl]
      rw [ih, mkContrib_add]

theorem dayAdd_eq (bhRows : List BusinessHours) (sid : String)
    (off hs ds ws nl s e : Int) (act : Bool) (acc : Accum) (d : Int) :
    dayAdd bhRows sid off hs ds ws nl s e act acc d
      = Accum.add acc (mkContrib act (daySecs bhRows sid off hs nl s e d)
          (daySecs bhRows sid off ds nl s e d) (daySecs bhRows sid off ws nl s e d)) := by
  unfold dayAdd
  have hinner : ∀ (a : Accum) (bh : Int × Int),
      (bhSegments off d bh.1 bh.2).foldl
        (fun a2 seg => segmentAdd hs ds ws nl s e act seg a2) a
        = Accum.add a (mkContrib act
            (((bhSegments off d bh.1 bh.2).map (segSecs hs nl s e)).sum)
            (((bhSegments off d bh.1 bh.2).map (segSecs ds nl s e)).sum)
            (((bhSegments off d bh.1 bh.2).map (segSecs ws nl s e)).sum)) := by
    intro a bh
    rw [show (fun a2 seg => segmentAdd hs ds ws nl s e act seg a2)
      = (fun a2 seg => Accum.add a2 (mkContrib act (segSecs hs nl s e seg)
          (segSecs ds nl s e seg) (segSecs ws nl s e seg))) from by
        funext a2 seg; exact segmentAdd_eq hs ds ws nl s e act seg a2]
    rw [foldl_add_contrib, accSum_mkContrib]
  rw [show (fun a bh =>
        (bhSegments off d (bh : Int × Int).1 bh.2).foldl
          (fun a2 seg => segmentAdd hs ds ws nl s e act seg a2) a)
    = (fun a bh => Accum.add a (mkContrib act
        (((bhSegments off d (bh : Int × Int).1 bh.2).map (segSecs hs nl s e)).sum)
        (((bhSegments off d bh.1 bh.2).map (segSecs ds nl s e)).sum)
        (((bhSegments off d bh.1 bh.2).map (segSecs ws nl s e)).sum))) from by
      funext a bh; exact hinner a bh]
  rw [foldl_add_contrib, accSum_mkContrib]
  rfl

theorem processRow_eq (bhRows : List BusinessHours) (sid : String)
    (off hs ds ws nl : Int) (acc : Accum) (row : Int × String × Int) :
    processRow bhRows sid off hs ds ws nl acc row
      = Accum.add acc (rowContrib bhRows sid off hs ds ws nl row) := by
  unfold processRow
  rw [show (dayAdd bhRows sid off hs ds ws nl row.1 row.2.2 (row.2.1 == "active"))
    = (fun a d => Accum.add a (mkContrib (row.2.1 == "active")
        (daySecs bhRows sid off hs nl row.1 row.2.2 d)
        (daySecs bhRows sid off ds nl row.1 row.2.2 d)
        (daySecs bhRows sid off ws nl row.1 row.2.2 d))) from by
      funext a d; exact dayAdd_eq bhRows sid off hs ds ws nl row.1 row.2.2 _ a d]
  rw [foldl_add_contrib, accSum_mkContrib]
  rfl

theorem calculate_eq_accSum (store_id : String) (bhRows : List BusinessHours)
    (off : Int) (statuses : List StoreStatus) (now : Int)
    (hne : statuses.filter
      (fun l => l.store_id == store_id && decide (now - 604800 ≤ l.timestamp_utc)) ≠ []) :
    calculate_uptime_downtime store_id bhRows off statuses now
      = { store_id := store_id,
          uptime_last_hour := round6 (accSum ((interpolate now
            (List.insertionSort tsLe (statuses.filter
              (fun l => l.store_id == store_id && decide (now - 604800 ≤ l.timestamp_utc))))).map
            (rowContrib bhRows store_id off (now - 3600) (now - 86400) (now - 604800) now))).up_hour,
          downtime_last_hour := round6 (accSum ((interpolate now
            (List.insertionSort tsLe (statuses.filter
              (fun l => l.store_id == store_id && decide (now - 604800 ≤ l.timestamp_utc))))).map
            (rowContrib bhRows store_id off (now - 3600) (now - 86400) (now - 604800) now))).down_hour,
          uptime_last_day := round6 (accSum ((interpolate now
            (List.insertionSort tsLe (statuses.filter
              (fun l => l.store_id == store_id && decide (now - 604800 ≤ l.timestamp_utc))))).map
            (rowContrib bhRows store_id off (now - 3600) (now - 86400) (now - 604800) now))).up_day,
          downtime_last_day := round6 (accSum ((interpolate now
            (List.insertionSort tsLe (statuses.filter
              (fun l => l.store_id == store_id && decide (now - 604800 ≤ l.timestamp_utc))))).map
            (rowContrib bhRows store_id off (now - 3600) (now - 86400) (now - 604800) now))).down_day,
          uptime_last_week := round6 (accSum ((interpolate now
            (List.insertionSort tsLe (statuses.filter
              (fun l => l.store_id == store_id && decide (now - 604800 ≤ l.timestamp_utc))))).map
            (rowContrib bhRows store_id off (now - 3600) (now - 86400) (now - 604800) now))).up_week,
          downtime_last_week := round6 (accSum ((interpolate now
            (List.insertionSort tsLe (statuses.filter
              (fun l => l.store_id == store_id && decide (now - 604800 ≤ l.timestamp_utc))))).map
            (rowContrib bhRows store_id off (now - 3600) (now - 86400) (now - 604800) now))).down_week } := by
  unfold calculate_uptime_downtime
  have hsne : List.insertionSort tsLe (statuses.filter
      (fun l => l.store_id == store_id && decide (now - 604800 ≤ l.timestamp_utc))) ≠ [] := by
    intro h0
    apply hne
    have hlen := (List.perm_insertionSort tsLe (statuses.filter
      (fun l => l.store_id == store_id && decide (now - 604800 ≤ l.timestamp_utc)))).length_eq
    rw [h0] at hlen
    exact List.length_eq_zero.mp hlen.symm
  rw [if_neg (by simpa using hsne)]
  dsimp only
  rw [show (processRow bhRows store_id off (now - 3600) (now - 86400) (now - 604800) now)
    = (fun acc row => Accum.add acc
        (rowContrib bhRows store_id off (now - 3600) (now - 86400) (now - 604800) now row)) from by
      funext acc row; exact processRow_eq bhRows store_id off _ _ _ now acc row]
  rw [foldl_add_contrib]
  rw [show Accum.add ⟨0, 0, 0, 0, 0, 0⟩
      (accSum ((interpolate now (List.insertionSort tsLe (statuses.filter
        (fun l => l.store_id == store_id && decide (now - 604800 ≤ l.timestamp_utc))))).map
        (rowContrib bhRows store_id off (now - 3600) (now - 86400) (now - 604800) now)))
    = accSum ((interpolate now (List.insertionSort tsLe (statuses.filter
        (fun l => l.store_id == store_id && decide (now - 604800 ≤ l.timestamp_utc))))).map
        (rowContrib bhRows store_id off (now - 3600) (now - 86400) (now - 604800) now))
    from Accum.zero_add _]

theorem localDay_spec (off t : Int) :
    86400 * localDay off t ≤ t + off ∧ t + off < 86400 * localDay off t + 86400 := by
  unfold localDay
  rw [Int.fdiv_eq_ediv (t + off) (by norm_num : (0 : Int) ≤ 86400)]
  omega

theorem dayList_self (d0 : Int) : dayList d0 d0 = [d0] := by
  unfold dayList
  rw [show (d0 - d0 + 1).toNat = 1 from by omega]
  rw [show List.range 1 = [0] from rfl]
  simp

theorem dayList_cons (d0 d1 : Int) (h : d0 ≤ d1) :
    dayList d0 d1 = d0 :: dayList (d0 + 1) d1 := by
  unfold dayList
  rw [show (d1 - d0 + 1).toNat = (d1 - (d0 + 1) + 1).toNat + 1 from by omega]
  rw [List.range_succ_eq_map]
  simp only [List.map_cons, List.map_map]
  rw [show d0 + ((0 : Nat) : Int) = d0 from by simp]
  congr 1
  apply List.map_congr_left
  intro k _
  simp only [Function.comp_apply]
  push_cast
  ring

theorem mem_dayList {d d0 d1 : Int} : d ∈ dayList d0 d1 ↔ d0 ≤ d ∧ d ≤ d1 := by
  unfold dayList
  simp only [List.mem_map, List.mem_range]
  constructor
  · rintro ⟨k, hk, rfl⟩
    omega
  · intro h
    exact ⟨(d - d0).toNat, by omega, by omega⟩

theorem dayWalk_aux (off : Int) :
    ∀ (n : Nat) (d0 A e : Int),
      localDay off e = d0 + (n : Int) →
      d0 ≤ localDay off A →
      A ≤ e →
      ((dayList d0 (d0 + (n : Int))).map
        (fun d => max 0 (min e (d * 86400 + 86399 - off) - max A (d * 86400 - off)))).sum
        = (e - A) - max 0 (localDay off e - localDay off A) := by
  intro n
  induction n with
  | zero =>
      intro d0 A e he hA hAe
      have hsA := localDay_spec off A
      have hse := localDay_spec off e
      rw [show d0 + ((0 : Nat) : Int) = d0 from by simp]
      rw [show d0 + ((0 : Nat) : Int) = d0 from by simp] at he
      rw [dayList_self]
      simp only [List.map_cons, List.map_nil, List.sum_cons, List.sum_nil]
      omega
  | succ n ih =>
      intro d0 A e he hA hAe
      have hsA := localDay_spec off A
      have hse := localDay_spec off e
      have hcons : dayList d0 (d0 + ((n + 1 : Nat) : Int))
          = d0 :: dayList (d0 + 1) (d0 + ((n + 1 : Nat) : Int)) :=
        dayList_cons _ _ (by omega)
      rw [hcons]
      simp only [List.map_cons, List.sum_cons]
      by_cases hcase : localDay off A ≤ d0
      · -- the head day is the day of A; switch the tail to start from the next midnight
        have hsA2 := localDay_spec off ((d0 + 1) * 86400 - off)
        have hldA2 : localDay off ((d0 + 1) * 86400 - off) = d0 + 1 := by omega
        have htail : (dayList (d0 + 1) (d0 + ((n + 1 : Nat) : Int))).map
              (fun d => max 0 (min e (d * 86400 + 86399 - off) - max A (d * 86400 - off)))
            = (dayList (d0 + 1) (d0 + ((n + 1 : Nat) : Int))).map
              (fun d => max 0 (min e (d * 86400 + 86399 - off)
                - max ((d0 + 1) * 86400 - off) (d * 86400 - off))) := by
          apply List.map_congr_left
          intro d hd
          have hdmem := mem_dayList.mp hd
          omega
        rw [htail]
        rw [show d0 + ((n + 1 : Nat) : Int) = (d0 + 1) + (n : Int) from by push_cast; ring]
        rw [ih (d0 + 1) ((d0 + 1) * 86400 - off) e (by push_cast at he ⊢; omega)
          (by omega) (by push_cast at he; omega)]
        push_cast at he
        omega
      · -- A lies on a later day: the head day contributes nothing
        rw [show d0 + ((n + 1 : Nat) : Int) = (d0 + 1) + (n : Int) from by push_cast; ring]
        rw [ih (d0 + 1) A e (by push_cast at he ⊢; omega) (by omega) hAe]
        omega

theorem daySecs_no_rules (bhRows : List BusinessHours) (sid : String)
    (off win nl s e d : Int) (hbh : ∀ r ∈ bhRows, r.store_id ≠ sid) :
    daySecs bhRows sid off win nl s e d
      = segSecs win nl s e (localize_naive off d 0, localize_naive off d 86399) := by
  unfold daySecs get_business_hours
  have hfil : bhRows.filter
      (fun r => r.store_id == sid && r.day_of_week == dayWeekday d) = [] := by
    rw [List.filter_eq_nil_iff]
    intro r hr
    simp [hbh r hr]
  rw [hfil]
  simp only [List.isEmpty_nil, if_true, List.map_cons, List.map_nil, List.sum_cons,
    List.sum_nil, add_zero]
  unfold bhSegments
  rw [if_neg (by unfold localize_naive; omega)]
  simp

theorem segSecs_default_day (off win nl s e d : Int) (hen : e ≤ nl) :
    segSecs win nl s e (localize_naive off d 0, localize_naive off d 86399)
      = max 0 (min e (d * 86400 + 86399 - off) - max (max s win) (d * 86400 - off)) := by
  unfold segSecs winSecs localize_naive
  omega

theorem rowSecs_no_rules (bhRows : List BusinessHours) (sid : String)
    (off win nl s e : Int) (hbh : ∀ r ∈ bhRows, r.store_id ≠ sid)
    (hse : s ≤ e) (hen : e ≤ nl) :
    rowSecs bhRows sid off win nl s e = coveredSeconds off (max s win) e := by
  unfold rowSecs
  rw [List.map_congr_left (fun d _ => by
    rw [daySecs_no_rules bhRows sid off win nl s e d hbh,
      segSecs_default_day off win nl s e d hen])]
  have hs' := localDay_spec off s
  have he' := localDay_spec off e
  have hA' := localDay_spec off (max s win)
  by_cases hwin : max s win ≤ e
  · have hmono : localDay off s ≤ localDay off e := by omega
    have hn : localDay off e
        = localDay off s + (((localDay off e - localDay off s).toNat : Nat) : Int) := by omega
    have haux := dayWalk_aux off ((localDay off e - localDay off s).toNat)
      (localDay off s) (max s win) e hn (by omega) hwin
    rw [show localDay off s + (((localDay off e - localDay off s).toNat : Nat) : Int)
      = localDay off e from by omega] at haux
    rw [haux]
    unfold coveredSeconds
    rw [if_pos hwin]
  · have hzero : ∀ x ∈ (dayList (localDay off s) (localDay off e)).map
        (fun d => max 0 (min e (d * 86400 + 86399 - off)
          - max (max s win) (d * 86400 - off))), x = 0 := by
      intro x hx
      obtain ⟨d, _, rfl⟩ := List.mem_map.mp hx
      omega
    rw [List.sum_eq_zero hzero]
    unfold coveredSeconds
    rw [if_neg (by omega)]

theorem coveredSeconds_chain (off win a b c : Int) (hab : a ≤ b) (hbc : b ≤ c) :
    coveredSeconds off (max a win) b + coveredSeconds off (max b win) c
      = coveredSeconds off (max a win) c := by
  have h1 := localDay_spec off (max a win)
  have h2 := localDay_spec off b
  have h3 := localDay_spec off (max b win)
  have h4 := localDay_spec off c
  unfold coveredSeconds
  split_ifs <;> omega

theorem interpolate_row_bounds (nl : Int) :
    ∀ (logs : List StoreStatus), List.Sorted tsLe logs →
      (∀ x ∈ logs, x.timestamp_utc ≤ nl) →
      ∀ row ∈ interpolate nl logs, row.1 ≤ row.2.2 ∧ row.2.2 ≤ nl := by
  intro logs
  induction logs with
  | nil => intro _ _ row hrow; simp [interpolate] at hrow
  | cons o rest ih =>
      cases rest with
      | nil =>
          intro _ hle row hrow
          simp only [interpolate, List.mem_singleton] at hrow
          subst hrow
          exact ⟨hle o (by simp), le_refl _⟩
      | cons o2 rest2 =>
          intro hsort hle row hrow
          simp only [interpolate, List.mem_cons] at hrow
          rcases hrow with rfl | hrow
          · refine ⟨List.rel_of_sorted_cons hsort o2 (by simp), ?_⟩
            exact hle o2 (by simp)
          · exact ih hsort.of_cons
              (fun x hx => hle x (List.mem_cons_of_mem _ hx)) row hrow

theorem interpolate_sum_covered (off win nl : Int) :
    ∀ (o : StoreStatus) (rest : List StoreStatus),
      List.Sorted tsLe (o :: rest) →
      (∀ x ∈ o :: rest, x.timestamp_utc ≤ nl) →
      ((interpolate nl (o :: rest)).map
        (fun row => coveredSeconds off (max row.1 win) row.2.2)).sum
        = coveredSeconds off (max o.timestamp_utc win) nl := by
  intro o rest
  induction rest generalizing o with
  | nil =>
      intro _ _
      simp [interpolate]
  | cons o2 rest2 ih =>
      intro hsort hle
      show ((interpolate nl (o :: o2 :: rest2)).map
        (fun row => coveredSeconds off (max row.1 win) row.2.2)).sum = _
      rw [show interpolate nl (o :: o2 :: rest2)
        = (o.timestamp_utc, o.status, o2.timestamp_utc) :: interpolate nl (o2 :: rest2)
        from rfl]
      simp only [List.map_cons, List.sum_cons]
      rw [ih o2 hsort.of_cons (fun x hx => hle x (List.mem_cons_of_mem _ hx))]
      exact coveredSeconds_chain off win o.timestamp_utc o2.timestamp_utc nl
        (List.rel_of_sorted_cons hsort o2 (by simp)) (hle o2 (by simp))

theorem accSum_hour_sum (l : List Accum) :
    (accSum l).up_hour + (accSum l).down_hour
      = (l.map (fun x => x.up_hour + x.down_hour)).sum := by
  induction l with
  | nil => simp [accSum, Accum.zero]
  | cons x xs ih =>
      show (Accum.add x (accSum xs)).up_hour + (Accum.add x (accSum xs)).down_hour = _
      simp only [Accum.add, List.map_cons, List.sum_cons]
      rw [← ih]
      ring

theorem accSum_day_sum (l : List Accum) :
    (accSum l).up_day + (accSum l).down_day
      = (l.map (fun x => x.up_day + x.down_day)).sum := by
  induction l with
  | nil => simp [accSum, Accum.zero]
  | cons x xs ih =>
      show (Accum.add x (accSum xs)).up_day + (Accum.add x (accSum xs)).down_day = _
      simp only [Accum.add, List.map_cons, List.sum_cons]
      rw [← ih]
      ring

theorem accSum_week_sum (l : List Accum) :
    (accSum l).up_week + (accSum l).down_week
      = (l.map (fun x => x.up_week + x.down_week)).sum := by
  induction l with
  | nil => simp [accSum, Accum.zero]
  | cons x xs ih =>
      show (Accum.add x (accSum xs)).up_week + (Accum.add x (accSum xs)).down_week = _
      simp only [Accum.add, List.map_cons, List.sum_cons]
      rw [← ih]
      ring

theorem mkContrib_hour_sum (act : Bool) (h d w : Int) :
    (mkContrib act h d w).up_hour + (mkContrib act h d w).down_hour = (h : ℚ) / 60 := by
  cases act <;> simp [mkContrib]

theorem mkContrib_day_sum (act : Bool) (h d w : Int) :
    (mkContrib act h d w).up_day + (mkContrib act h d w).down_day = (d : ℚ) / 3600 := by
  cases act <;> simp [mkContrib]

theorem mkContrib_week_sum (act : Bool) (h d w : Int) :
    (mkContrib act h d w).up_week + (mkContrib act h d w).down_week = (w : ℚ) / 3600 := by
  cases act <;> simp [mkContrib]

theorem sum_cast_div (c : ℚ) : ∀ (l : List Int),
    (l.map (fun x => ((x : Int) : ℚ) / c)).sum = ((l.sum : Int) : ℚ) / c := by
  intro l
  induction l with
  | nil => simp
  | cons x xs ih =>
      simp only [List.map_cons, List.sum_cons, ih]
      push_cast
      ring

theorem round6_pair_close (u d target : ℚ) (h : u + d = target) :
    |round6 u + round6 d - target| ≤ 1 / 1000000 := by
  have h1 := round6_close u
  have h2 := round6_close d
  have hsplit : round6 u + round6 d - target = (round6 u - u) + (round6 d - d) := by
    rw [← h]; ring
  rw [hsplit]
  calc |(round6 u - u) + (round6 d - d)|
      ≤ |round6 u - u| + |round6 d - d| := abs_add _ _
    _ ≤ 1 / 2000000 + 1 / 2000000 := add_le_add h1 h2
    _ = 1 / 1000000 := by norm_num

/-- Claim C2 (amended): for every location with no business-hour rows and at
least one trailing-week observation (first such observation at `t0`, all
observations at or before the reference), uptime + downtime of each window
equals the length of the overlap of that window with `[t0, reference]`,
minus one second for each local midnight inside that overlap (the default
full-day range ends at 23:59:59), expressed in the window's unit and up to
the 6-decimal rounding. -/
theorem fully_open_sum_eq_covered (sid : String) (bhRows : List BusinessHours)
    (off : Int) (statuses : List StoreStatus) (now t0 : Int)
    (hbh : ∀ r ∈ bhRows, r.store_id ≠ sid)
    (hnow : ∀ l ∈ statuses, l.store_id = sid → l.timestamp_utc ≤ now)
    (hmem : ∃ l ∈ statuses, l.store_id = sid ∧ now - 604800 ≤ l.timestamp_utc
      ∧ l.timestamp_utc = t0)
    (hmin : ∀ l ∈ statuses, l.store_id = sid → now - 604800 ≤ l.timestamp_utc →
      t0 ≤ l.timestamp_utc) :
    |(calculate_uptime_downtime sid bhRows off statuses now).uptime_last_hour
      + (calculate_uptime_downtime sid bhRows off statuses now).downtime_last_hour
      - ((coveredSeconds off (max t0 (now - 3600)) now : Int) : ℚ) / 60| ≤ 1 / 1000000 ∧
    |(calculate_uptime_downtime sid bhRows off statuses now).uptime_last_day
      + (calculate_uptime_downtime sid bhRows off statuses now).downtime_last_day
      - ((coveredSeconds off (max t0 (now - 86400)) now : Int) : ℚ) / 3600| ≤ 1 / 1000000 ∧
    |(calculate_uptime_downtime sid bhRows off statuses now).uptime_last_week
      + (calculate_uptime_downtime sid bhRows off statuses now).downtime_last_week
      - ((coveredSeconds off (max t0 (now - 604800)) now : Int) : ℚ) / 3600| ≤ 1 / 1000000 := by
  set F := statuses.filter
    (fun l => l.store_id == sid && decide (now - 604800 ≤ l.timestamp_utc)) with hF
  have hFne : F ≠ [] := by
    obtain ⟨l0, hl0, hsid0, hwk0, ht0⟩ := hmem
    intro h0
    have hl0F : l0 ∈ F := by
      rw [hF, List.mem_filter]
      exact ⟨hl0, by simp [hsid0, hwk0]⟩
    rw [h0] at hl0F
    exact (List.not_mem_nil l0) hl0F
  set L := List.insertionSort tsLe F with hL
  have hsorted : List.Sorted tsLe L := List.sorted_insertionSort tsLe F
  have hperm : L.Perm F := List.perm_insertionSort tsLe F
  have hmemL : ∀ x ∈ L, x ∈ statuses ∧ x.store_id = sid
      ∧ now - 604800 ≤ x.timestamp_utc := by
    intro x hx
    have hxF : x ∈ F := hperm.mem_iff.mp hx
    rw [hF, List.mem_filter] at hxF
    obtain ⟨hmem2, hcond⟩ := hxF
    rw [Bool.and_eq_true] at hcond
    exact ⟨hmem2, by simpa using hcond.1, by simpa using hcond.2⟩
  have hLne : L ≠ [] := by
    intro h0
    exact hFne (((h0 ▸ hperm).symm).eq_nil)
  obtain ⟨o, rest, hcons⟩ := List.exists_cons_of_ne_nil hLne
  have hoL : o ∈ L := by rw [hcons]; simp
  have ho := hmemL o hoL
  have hots : o.timestamp_utc = t0 := by
    have h1 : t0 ≤ o.timestamp_utc := hmin o ho.1 ho.2.1 ho.2.2
    obtain ⟨l0, hl0, hsid0, hwk0, ht0⟩ := hmem
    have hl0L : l0 ∈ L := hperm.mem_iff.mpr (by
      rw [hF, List.mem_filter]
      exact ⟨hl0, by simp [hsid0, hwk0]⟩)
    have h2 : o.timestamp_utc ≤ l0.timestamp_utc := by
      rw [hcons] at hl0L
      rcases List.mem_cons.mp hl0L with heq | hl0rest
      · rw [heq]
      · exact List.rel_of_sorted_cons (hcons ▸ hsorted) l0 hl0rest
    omega
  have hallle : ∀ x ∈ L, x.timestamp_utc ≤ now := fun x hx =>
    hnow x (hmemL x hx).1 (hmemL x hx).2.1
  have hrows := interpolate_row_bounds now L hsorted hallle
  have key : ∀ (win : Int) (c : ℚ),
      ((interpolate now L).map (fun row =>
        ((rowSecs bhRows sid off win now row.1 row.2.2 : Int) : ℚ) / c)).sum
      = ((coveredSeconds off (max t0 win) now : Int) : ℚ) / c := by
    intro win c
    rw [List.map_congr_left (fun row hrow => by
      rw [rowSecs_no_rules bhRows sid off win now row.1 row.2.2 hbh
        (hrows row hrow).1 (hrows row hrow).2])]
    rw [show ((interpolate now L).map (fun row =>
        ((coveredSeconds off (max row.1 win) row.2.2 : Int) : ℚ) / c))
      = (((interpolate now L).map
          (fun row => coveredSeconds off (max row.1 win) row.2.2)).map
          (fun x : Int => ((x : Int) : ℚ) / c)) from by rw [List.map_map]; rfl]
    rw [sum_cast_div]
    rw [hcons, interpolate_sum_covered off win now o rest (hcons ▸ hsorted)
      (hcons ▸ hallle), hots]
  rw [calculate_eq_accSum sid bhRows off statuses now hFne]
  rw [← hF, ← hL]
  dsimp only
  refine ⟨?_, ?_, ?_⟩
  · apply round6_pair_close
    rw [accSum_hour_sum, List.map_map]
    rw [List.map_congr_left (fun row _ => by
      exact mkContrib_hour_sum (row.2.1 == "active")
        (rowSecs bhRows sid off (now - 3600) now row.1 row.2.2)
        (rowSecs bhRows sid off (now - 86400) now row.1 row.2.2)
        (rowSecs bhRows sid off (now - 604800) now row.1 row.2.2))]
    exact key (now - 3600) 60
  · apply round6_pair_close
    rw [accSum_day_sum, List.map_map]
    rw [List.map_congr_left (fun row _ => by
      exact mkContrib_day_sum (row.2.1 == "active")
        (rowSecs bhRows sid off (now - 3600) now row.1 row.2.2)
        (rowSecs bhRows sid off (now - 86400) now row.1 row.2.2)
        (rowSecs bhRows sid off (now - 604800) now row.1 row.2.2))]
    exact key (now - 86400) 3600
  · apply round6_pair_close
    rw [accSum_week_sum, List.map_map]
    rw [List.map_congr_left (fun row _ => by
      exact mkContrib_week_sum (row.2.1 == "active")
        (rowSecs bhRows sid off (now - 3600) now row.1 row.2.2)
        (rowSecs bhRows sid off (now - 86400) now row.1 row.2.2)
        (rowSecs bhRows sid off (now - 604800) now row.1 row.2.2))]
    exact key (now - 604800) 3600

theorem interpolate_status_map (nl : Int) (g : String → String) :
    ∀ logs : List StoreStatus,
      interpolate nl (logs.map (fun l => ⟨l.store_id, l.timestamp_utc, g l.status⟩))
        = (interpolate nl logs).map (fun row => (row.1, g row.2.1, row.2.2))
  | [] => rfl
  | [o] => rfl
  | o :: o2 :: rest => by
      show (o.timestamp_utc, g o.status, o2.timestamp_utc)
          :: interpolate nl ((o2 :: rest).map (fun l => ⟨l.store_id, l.timestamp_utc, g l.status⟩))
        = (o.timestamp_utc, g o.status, o2.timestamp_utc)
          :: (interpolate nl (o2 :: rest)).map (fun row => (row.1, g row.2.1, row.2.2))
      rw [interpolate_status_map nl g (o2 :: rest)]

theorem processRow_status (bhRows : List BusinessHours) (sid : String)
    (off hs ds ws nl : Int) (acc : Accum) (row : Int × String × Int)
    (g : String → String) (hg : (g row.2.1 == "active") = (row.2.1 == "active")) :
    processRow bhRows sid off hs ds ws nl acc (row.1, g row.2.1, row.2.2)
      = processRow bhRows sid off hs ds ws nl acc row := by
  unfold processRow
  dsimp only
  rw [hg]

theorem interpolate_status_from (nl : Int) :
    ∀ logs : List StoreStatus, ∀ row ∈ interpolate nl logs,
      ∃ o ∈ logs, row.2.1 = o.status
  | [] => by intro row hrow; simp [interpolate] at hrow
  | [o] => by
      intro row hrow
      simp only [interpolate, List.mem_singleton] at hrow
      exact ⟨o, by simp, by rw [hrow]⟩
  | o :: o2 :: rest => by
      intro row hrow
      simp only [interpolate, List.mem_cons] at hrow
      rcases hrow with rfl | hrow
      · exact ⟨o, by simp, rfl⟩
      · obtain ⟨o3, ho3, hstat⟩ := interpolate_status_from nl (o2 :: rest) row hrow
        exact ⟨o3, List.mem_cons_of_mem _ ho3, hstat⟩

theorem accSum_up_hour_zero (l : List Accum) (h : ∀ x ∈ l, x.up_hour = 0) :
    (accSum l).up_hour = 0 := by
  induction l with
  | nil => simp [accSum, Accum.zero]
  | cons x xs ih =>
      show (Accum.add x (accSum xs)).up_hour = 0
      simp only [Accum.add]
      rw [h x (by simp), ih (fun y hy => h y (List.mem_cons_of_mem _ hy))]
      norm_num

theorem accSum_up_day_zero (l : List Accum) (h : ∀ x ∈ l, x.up_day = 0) :
    (accSum l).up_day = 0 := by
  induction l with
  | nil => simp [accSum, Accum.zero]
  | cons x xs ih =>
      show (Accum.add x (accSum xs)).up_day = 0
      simp only [Accum.add]
      rw [h x (by simp), ih (fun y hy => h y (List.mem_cons_of_mem _ hy))]
      norm_num

theorem accSum_up_week_zero (l : List Accum) (h : ∀ x ∈ l, x.up_week = 0) :
    (accSum l).up_week = 0 := by
  induction l with
  | nil => simp [accSum, Accum.zero]
  | cons x xs ih =>
      show (Accum.add x (accSum xs)).up_week = 0
      simp only [Accum.add]
      rw [h x (by simp), ih (fun y hy => h y (List.mem_cons_of_mem _ hy))]
      norm_num

theorem isEmpty_map {α β : Type} (f : α → β) (l : List α) :
    (l.map f).isEmpty = l.isEmpty := by
  cases l <;> rfl

/-- Claim C9: an observation's status feeds the accumulators only through
the test `status == "active"`: replacing every status other than exactly
`"active"` (including unexpected values) by `"inactive"` leaves the output
unchanged, and when no observation is `"active"` the three uptime fields
are 0 — non-active intervals are accumulated as downtime, never uptime. -/
theorem nonactive_counts_as_downtime (sid : String) (bhRows : List BusinessHours)
    (off : Int) (statuses : List StoreStatus) (now : Int) :
    calculate_uptime_downtime sid bhRows off
        (statuses.map (fun l =>
          if l.status == "active" then l else { l with status := "inactive" })) now
      = calculate_uptime_downtime sid bhRows off statuses now ∧
    ((∀ l ∈ statuses, l.status ≠ "active") →
      (calculate_uptime_downtime sid bhRows off statuses now).uptime_last_hour = 0 ∧
      (calculate_uptime_downtime sid bhRows off statuses now).uptime_last_day = 0 ∧
      (calculate_uptime_downtime sid bhRows off statuses now).uptime_last_week = 0) := by
  constructor
  · -- replacing every non-"active" status by "inactive" changes nothing
    have hfeq : (statuses.map (fun l =>
        if l.status == "active" then l else { l with status := "inactive" }))
        = statuses.map (fun l => ⟨l.store_id, l.timestamp_utc,
            if l.status == "active" then l.status else "inactive"⟩) := by
      apply List.map_congr_left
      intro l _
      by_cases h : l.status == "active" <;> simp [h]
    rw [hfeq]
    unfold calculate_uptime_downtime
    dsimp only
    rw [List.filter_map]
    rw [show ((fun l : StoreStatus =>
          l.store_id == sid && decide (now - 604800 ≤ l.timestamp_utc))
        ∘ (fun l : StoreStatus => (⟨l.store_id, l.timestamp_utc,
          if l.status == "active" then l.status else "inactive"⟩ : StoreStatus)))
      = (fun l : StoreStatus =>
          l.store_id == sid && decide (now - 604800 ≤ l.timestamp_utc)) from by
        funext l; rfl]
    rw [← List.map_insertionSort tsLe tsLe
      (fun l : StoreStatus => (⟨l.store_id, l.timestamp_utc,
        if l.status == "active" then l.status else "inactive"⟩ : StoreStatus))
      (statuses.filter (fun l => l.store_id == sid && decide (now - 604800 ≤ l.timestamp_utc)))
      (fun a _ b _ => Iff.rfl)]
    rw [isEmpty_map]
    rw [interpolate_status_map now (fun s => if s == "active" then s else "inactive")]
    rw [List.foldl_map]
    rw [show (fun (acc : Accum) (row : Int × String × Int) =>
        processRow bhRows sid off (now - 3600) (now - 86400) (now - 604800) now acc
          (row.1, (if row.2.1 == "active" then row.2.1 else "inactive"), row.2.2))
      = (fun (acc : Accum) (row : Int × String × Int) =>
        processRow bhRows sid off (now - 3600) (now - 86400) (now - 604800) now acc row)
      from by
        funext acc row
        exact processRow_status bhRows sid off (now - 3600) (now - 86400) (now - 604800)
          now acc row (fun s => if s == "active" then s else "inactive")
          (by by_cases h : row.2.1 == "active" <;> simp [h])]
  · intro hnone
    by_cases hFne : statuses.filter
        (fun l => l.store_id == sid && decide (now - 604800 ≤ l.timestamp_utc)) = []
    · unfold calculate_uptime_downtime
      simp only [hFne, List.insertionSort, List.isEmpty_nil, if_true]
      exact ⟨trivial, trivial, trivial⟩
    · rw [calculate_eq_accSum sid bhRows off statuses now hFne]
      dsimp only
      have hrows : ∀ row ∈ interpolate now (List.insertionSort tsLe (statuses.filter
          (fun l => l.store_id == sid && decide (now - 604800 ≤ l.timestamp_utc)))),
          (row.2.1 == "active") = false := by
        intro row hrow
        obtain ⟨o, hoL, hstat⟩ := interpolate_status_from now _ row hrow
        have homem : o ∈ statuses := by
          have hoF := (List.perm_insertionSort tsLe _).mem_iff.mp hoL
          exact (List.mem_filter.mp hoF).1
        rw [hstat]
        exact beq_eq_false_iff_ne.mpr (hnone o homem)
      have hzero : ∀ x ∈ (interpolate now (List.insertionSort tsLe (statuses.filter
          (fun l => l.store_id == sid && decide (now - 604800 ≤ l.timestamp_utc))))).map
          (rowContrib bhRows sid off (now - 3600) (now - 86400) (now - 604800) now),
          x.up_hour = 0 ∧ x.up_day = 0 ∧ x.up_week = 0 := by
        intro x hx
        obtain ⟨row, hrow, rfl⟩ := List.mem_map.mp hx
        unfold rowContrib
        rw [hrows row hrow]
        simp [mkContrib]
      refine ⟨?_, ?_, ?_⟩
      · rw [accSum_up_hour_zero _ (fun x hx => (hzero x hx).1), round6_zero]
      · rw [accSum_up_day_zero _ (fun x hx => (hzero x hx).2.1), round6_zero]
      · rw [accSum_up_week_zero _ (fun x hx => (hzero x hx).2.2), round6_zero]

/-- Witness for the amended C2: one active observation half an hour before
the reference; every window's uptime + downtime equals 30 minutes. -/
theorem fully_open_sum_eq_covered_witness :
    |(calculate_uptime_downtime "S1" [] 0 [⟨"S1", 43200, "active"⟩] 45000).uptime_last_hour
      + (calculate_uptime_downtime "S1" [] 0 [⟨"S1", 43200, "active"⟩] 45000).downtime_last_hour
      - ((coveredSeconds 0 (max 43200 (45000 - 3600)) 45000 : Int) : ℚ) / 60| ≤ 1 / 1000000 ∧
    |(calculate_uptime_downtime "S1" [] 0 [⟨"S1", 43200, "active"⟩] 45000).uptime_last_day
      + (calculate_uptime_downtime "S1" [] 0 [⟨"S1", 43200, "active"⟩] 45000).downtime_last_day
      - ((coveredSeconds 0 (max 43200 (45000 - 86400)) 45000 : Int) : ℚ) / 3600| ≤ 1 / 1000000 ∧
    |(calculate_uptime_downtime "S1" [] 0 [⟨"S1", 43200, "active"⟩] 45000).uptime_last_week
      + (calculate_uptime_downtime "S1" [] 0 [⟨"S1", 43200, "active"⟩] 45000).downtime_last_week
      - ((coveredSeconds 0 (max 43200 (45000 - 604800)) 45000 : Int) : ℚ) / 3600| ≤ 1 / 1000000 :=
  fully_open_sum_eq_covered "S1" [] 0 [⟨"S1", 43200, "active"⟩] 45000 43200
    (by simp) (by decide) (by decide) (by decide)

/-- Witness for C9 at an unexpected status string. -/
theorem nonactive_counts_as_downtime_witness :
    (calculate_uptime_downtime "S1" [] 0 [⟨"S1", 100, "offline"⟩] 200).uptime_last_hour = 0 ∧
    (calculate_uptime_downtime "S1" [] 0 [⟨"S1", 100, "offline"⟩] 200).uptime_last_day = 0 ∧
    (calculate_uptime_downtime "S1" [] 0 [⟨"S1", 100, "offline"⟩] 200).uptime_last_week = 0 :=
  (nonactive_counts_as_downtime "S1" [] 0 [⟨"S1", 100, "offline"⟩] 200).2 (by decide)
